import Mathlib

/-!
Shallow embedding of the coz causal-profiler runtime
(src/lib/runtime/profiler.cpp) and verification of its specification.

Machine integers (`size_t`) are modelled as `Nat`; every subtraction in the
source is guarded by a comparison that makes the `Nat` truncated subtraction
agree with the unsigned machine subtraction on all reachable states, except
where a theorem states the needed ordering hypothesis explicitly.

External collaborators that are not part of the source file are modelled as
parameters:
- the address map `find_line` (AddressMap, consumed per the spec) is a
  function `Nat → Option Line`;
- the sleep primitive `wait` (from util.h, not in the source tree) is a
  function from requested nanoseconds to actually-elapsed nanoseconds,
  following the spec: it returns the actually elapsed time;
- the seeded PRNG is modelled as the stream of values it will produce
  (field `rands`), following the spec's "Seeded PRNG for delay-size
  selection".
-/

namespace coz

/-- A source line is identified by its address (pointer identity in the
source); sample records refer to lines through the address map. -/
abbrev Line := Nat

/-- Compile-time tunables (`SamplePeriod`, `SampleWakeupCount`,
`MinRoundSamples`, `SpeedupDivisions` from constants outside the source
file); kept abstract as a configuration record. -/
structure Config where
  SamplePeriod : Nat
  SampleWakeupCount : Nat
  MinRoundSamples : Nat
  SpeedupDivisions : Nat
  deriving DecidableEq, Repr

/-- Per-thread profiler state (`thread_state`): delay bookkeeping plus the
sampler handle, whose kernel-side status is modelled by the two booleans
(`sampler.start()/stop()` toggling and `sampler.close()`). -/
structure thread_state where
  delay_count : Nat
  excess_delay : Nat
  global_delay_snapshot : Nat
  local_delay_snapshot : Nat
  sampler_running : Bool
  sampler_open : Bool
  deriving DecidableEq, Repr

/-- Process-wide profiler singleton state: the atomics `_selected_line`,
`_delay_size`, `_global_delays`, `_round_samples`, `_round_start_delays`,
the startup-time configuration `_fixed_line`, `_fixed_delay_size` (sentinel
`-1` meaning unset) and `_start_time`, and the `_shutdown_run` flag.
`rands` models the seeded PRNG as the stream of values it will draw. -/
structure global_state where
  selected_line : Option Line
  delay_size : Nat
  global_delays : Nat
  round_samples : Nat
  round_start_delays : Nat
  fixed_line : Option Line
  fixed_delay_size : Int
  start_time : Nat
  shutdown_run : Bool
  rands : List Nat
  deriving DecidableEq, Repr

/-- A perf_event record: either a sample carrying an instruction pointer and
a callchain, or a metadata record (`is_sample = false`). -/
structure record where
  is_sample : Bool
  ip : Nat
  callchain : List Nat
  deriving DecidableEq, Repr

/-- Observable effects of the profiler: line sample-counter increments
(`l->add_sample()`), output-sink events (`start_round`, `end_round`,
`shutdown`), destruction of the output sink, and the end-to-end report line
printed to stderr (carrying `fixed_delay_size`, `SamplePeriod` and the
computed effective time; the printed first column is the float
`fixed_delay_size / SamplePeriod`). -/
inductive event where
  | line_sample (l : Line)
  | start_round (l : Line)
  | end_round (delays : Nat) (delay_size : Nat)
  | shutdown_ev
  | output_destroyed
  | e2e_report (fds : Int) (sp : Nat) (effective : Nat)
  deriving DecidableEq, Repr

/-- Ambient context: the tunables, the address map and the sleep primitive. -/
structure prof_ctx where
  cfg : Config
  find_line : Nat → Option Line
  wait : Nat → Nat

/-- `profiler::find_containing_line`: resolve a record to a line by trying
the instruction pointer, then each callchain frame; `none` for metadata
records and out-of-scope samples. -/
def find_containing_line (find_line : Nat → Option Line) (r : record) :
    Option Line :=
  if r.is_sample then
    match find_line r.ip with
    | some l => some l
    | none => r.callchain.findSome? find_line
  else
    none

/-- `profiler::add_delays` (the DelayEngine): reconcile a thread's
`delay_count` with `_global_delays`, either contributing delays it skipped,
or pausing (consuming `excess_delay` credit first) and catching up. -/
def add_delays (wait : Nat → Nat) (g : global_state) (st : thread_state) :
    global_state × thread_state :=
  let global_delay_count := g.global_delays
  let delay_size := g.delay_size
  if st.delay_count > global_delay_count then
    ({ g with global_delays :=
        g.global_delays + (st.delay_count - global_delay_count) }, st)
  else if st.delay_count < global_delay_count then
    let time_to_wait := (global_delay_count - st.delay_count) * delay_size
    if st.excess_delay > time_to_wait then
      (g, { st with excess_delay := st.excess_delay - time_to_wait,
                    delay_count := global_delay_count })
    else
      let t := time_to_wait - st.excess_delay
      (g, { st with excess_delay := wait t - t,
                    delay_count := global_delay_count })
  else
    (g, st)

/-- Tail of the per-sample loop body of `profiler::process_samples`, from
"Is there a currently selected line?" on: bump `delay_count` when the
sample's line is the selected one, increment `_round_samples`, and end the
round when the incremented value reaches `MinRoundSamples`. -/
def tally_sample (cfg : Config) (g : global_state) (st : thread_state)
    (l : Option Line) (c : Line) :
    global_state × thread_state × List event :=
  let st' := if l = some c then
      { st with delay_count := st.delay_count + 1 }
    else st
  let n := g.round_samples + 1
  if n = cfg.MinRoundSamples then
    ({ g with round_samples := n, selected_line := none }, st',
     [event.end_round (g.global_delays - g.round_start_delays) g.delay_size])
  else
    ({ g with round_samples := n }, st', [])

/-- One iteration of the record loop of `profiler::process_samples`: resolve
the sample, count it on its line, and either start a round (the CAS from
`nil` succeeds, since the loop runs with the state latch held and the line
was just loaded as `nil`), bail out (`return`, the fourth component `true`)
on an out-of-scope sample with no round and no fixed line, or tally the
sample into the current round. -/
def process_one (ctx : prof_ctx) (g : global_state) (st : thread_state)
    (r : record) : global_state × thread_state × List event × Bool :=
  if r.is_sample then
    let l := find_containing_line ctx.find_line r
    let evs0 : List event := match l with
      | some l0 => [event.line_sample l0]
      | none => []
    match g.selected_line with
    | some c =>
      let t := tally_sample ctx.cfg g st l c
      (t.1, t.2.1, evs0 ++ t.2.2, false)
    | none =>
      let l' := match g.fixed_line with
        | some f => some f
        | none => l
      match l' with
      | none => (g, st, evs0, true)
      | some l0 =>
        let dr : Nat × List Nat :=
          if g.fixed_delay_size ≠ -1 then
            (g.fixed_delay_size.toNat, g.rands)
          else
            match g.rands with
            | [] => (0, ([] : List Nat))
            | x :: xs => (x * ctx.cfg.SamplePeriod / ctx.cfg.SpeedupDivisions, xs)
        let g1 := { g with selected_line := some l0,
                           round_samples := 0,
                           round_start_delays := g.global_delays,
                           delay_size := dr.1,
                           rands := dr.2 }
        let t := tally_sample ctx.cfg g1 st l' l0
        (t.1, t.2.1, evs0 ++ event.start_round l0 :: t.2.2, false)
  else
    (g, st, [], false)

/-- The record loop of `profiler::process_samples`: process buffered records
in order, stopping early (fourth component `true`) when an iteration takes
the early `return`. -/
def process_loop (ctx : prof_ctx) (g : global_state) (st : thread_state) :
    List record → global_state × thread_state × List event × Bool
  | [] => (g, st, [], false)
  | r :: rs =>
    let p := process_one ctx g st r
    if p.2.2.2 then
      (p.1, p.2.1, p.2.2.1, true)
    else
      let q := process_loop ctx p.1 p.2.1 rs
      (q.1, q.2.1, p.2.2.1 ++ q.2.2.1, q.2.2.2)

/-- `profiler::process_samples`: stop the sampler, drain and process the
buffered records (`recs`), and — unless the loop took the early `return` —
run the DelayEngine and restart the sampler. -/
def process_samples (ctx : prof_ctx) (g : global_state) (st : thread_state)
    (recs : List record) : global_state × thread_state × List event :=
  let st0 := { st with sampler_running := false }
  let p := process_loop ctx g st0 recs
  if p.2.2.2 then
    (p.1, p.2.1, p.2.2.1)
  else
    let a := add_delays ctx.wait p.1 p.2.1
    (a.1, { a.2 with sampler_running := true }, p.2.2.1)

/-- `profiler::snapshot_delays`: stash `_global_delays` and the thread's
`delay_count` into the snapshot fields. -/
def snapshot_delays (g : global_state) (st : thread_state) : thread_state :=
  { st with global_delay_snapshot := g.global_delays,
            local_delay_snapshot := st.delay_count }

/-- `profiler::skip_delays`: acknowledge the delays issued since the
snapshot without performing them. -/
def skip_delays (g : global_state) (st : thread_state) : thread_state :=
  let missed_delays := g.global_delays - st.global_delay_snapshot
  { st with delay_count := st.local_delay_snapshot + missed_delays }

/-- `profiler::catch_up`: run the DelayEngine immediately. -/
def catch_up (wait : Nat → Nat) (g : global_state) (st : thread_state) :
    global_state × thread_state :=
  add_delays wait g st

/-- `profiler::begin_sampling`: configure and start this thread's sampler
(the perf_event configuration itself is kernel-side and not modelled beyond
the sampler status). -/
def begin_sampling (st : thread_state) : thread_state :=
  { st with sampler_running := true, sampler_open := true }

/-- `profiler::end_sampling`: drain remaining samples, run the DelayEngine,
then stop and close the sampler. -/
def end_sampling (ctx : prof_ctx) (g : global_state) (st : thread_state)
    (recs : List record) : global_state × thread_state × List event :=
  let p := process_samples ctx g st recs
  let a := add_delays ctx.wait p.1 p.2.1
  (a.1, { a.2 with sampler_running := false, sampler_open := false }, p.2.2)

/-- `profiler::shutdown`: guarded by the `_shutdown_run` test-and-set; the
first call ends sampling on the calling thread, emits the shutdown event,
destroys the output sink, and in end-to-end mode (both `_fixed_line` and
`_fixed_delay_size` set) prints the speedup fraction and effective time to
stderr. `now` models `get_time()`. -/
def shutdown (ctx : prof_ctx) (now : Nat) (g : global_state)
    (st : thread_state) (recs : List record) :
    global_state × thread_state × List event :=
  if g.shutdown_run then
    (g, st, [])
  else
    let g0 := { g with shutdown_run := true }
    let p := end_sampling ctx g0 st recs
    let evs1 := p.2.2 ++ [event.shutdown_ev, event.output_destroyed]
    if p.1.fixed_line.isSome ∧ p.1.fixed_delay_size ≠ -1 then
      let runtime := now - p.1.start_time
      let delay_count := p.1.global_delays
      let effective_time := runtime - delay_count * p.1.fixed_delay_size.toNat
      (p.1, p.2.1,
       evs1 ++ [event.e2e_report p.1.fixed_delay_size ctx.cfg.SamplePeriod
                  effective_time])
    else
      (p.1, p.2.1, evs1)

/-- The wrapper argument allocated by `profiler::handle_pthread_create`
(`thread_start_arg`): the real thread function and argument (opaque
identifiers here) plus the parent's delay bookkeeping captured at spawn
time. -/
structure thread_start_arg where
  fn : Nat
  arg : Nat
  parent_delay_count : Nat
  parent_excess_delay : Nat
  deriving DecidableEq, Repr

/-- `profiler::handle_pthread_create`: capture the parent's `delay_count`
and `excess_delay` into the wrapper argument passed to the wrapped thread
entry. -/
def handle_pthread_create (fn a : Nat) (parent : thread_state) :
    thread_start_arg :=
  ⟨fn, a, parent.delay_count, parent.excess_delay⟩

/-- The state-setup part of `profiler::start_thread`, executed on the child
thread before the user function runs: copy the inherited delay bookkeeping
into the fresh thread state, then `begin_sampling()`. -/
def start_thread_setup (a : thread_start_arg) (child : thread_state) :
    thread_state :=
  begin_sampling
    { child with delay_count := a.parent_delay_count,
                 excess_delay := a.parent_excess_delay }

/-- `profiler::samples_ready` (the `SampleSignal` handler): acquire the
thread state in signal-context mode; the two-mode latch fails rather than
waits, modelled by the `Option` argument. Process samples only on success. -/
def samples_ready (ctx : prof_ctx) (state : Option thread_state)
    (g : global_state) (recs : List record) :
    global_state × Option thread_state × List event :=
  match state with
  | none => (g, none, [])
  | some st =>
    let p := process_samples ctx g st recs
    (p.1, some p.2.1, p.2.2)

/-- The sequence of values returned by `n` successive atomic increments
(`++_round_samples`, a fetch-add returning the incremented value) applied to
a counter that starts at `0`, in the order the hardware serializes them —
the increments may come from any interleaving of threads. -/
def fetch_add_returns (n : Nat) : List Nat :=
  (List.range n).map (· + 1)

/-- The configuration fields of the global state that no profiling
operation may modify after startup. -/
def same_config (g g' : global_state) : Prop :=
  g'.fixed_line = g.fixed_line ∧ g'.fixed_delay_size = g.fixed_delay_size ∧
  g'.start_time = g.start_time ∧ g'.shutdown_run = g.shutdown_run

/-- Recognizer for the end-to-end report line among the observable events. -/
def is_e2e : event → Bool
  | .e2e_report _ _ _ => true
  | _ => false

lemma same_config_refl (g : global_state) : same_config g g :=
  ⟨rfl, rfl, rfl, rfl⟩

lemma same_config_trans {g g' g'' : global_state} (h1 : same_config g g')
    (h2 : same_config g' g'') : same_config g g'' :=
  ⟨h2.1.trans h1.1, h2.2.1.trans h1.2.1, h2.2.2.1.trans h1.2.2.1,
   h2.2.2.2.trans h1.2.2.2⟩

lemma tally_sample_global_delays (cfg : Config) (g : global_state)
    (st : thread_state) (l : Option Line) (c : Line) :
    (tally_sample cfg g st l c).1.global_delays = g.global_delays := by
  simp only [tally_sample]
  split <;> rfl

lemma tally_sample_config (cfg : Config) (g : global_state)
    (st : thread_state) (l : Option Line) (c : Line) :
    same_config g (tally_sample cfg g st l c).1 := by
  simp only [tally_sample]
  split <;> exact ⟨rfl, rfl, rfl, rfl⟩

lemma add_delays_config (wait : Nat → Nat) (g : global_state)
    (st : thread_state) : same_config g (add_delays wait g st).1 := by
  simp only [add_delays]
  split_ifs <;> exact ⟨rfl, rfl, rfl, rfl⟩

lemma add_delays_global_le (wait : Nat → Nat) (g : global_state)
    (st : thread_state) :
    g.global_delays ≤ (add_delays wait g st).1.global_delays := by
  simp only [add_delays]
  split_ifs <;> simp

lemma process_one_global_delays (ctx : prof_ctx) (g : global_state)
    (st : thread_state) (r : record) :
    (process_one ctx g st r).1.global_delays = g.global_delays := by
  simp only [process_one]
  split
  · split
    · exact tally_sample_global_delays ..
    · split
      · rfl
      · rw [tally_sample_global_delays]
  · rfl

lemma process_one_config (ctx : prof_ctx) (g : global_state)
    (st : thread_state) (r : record) :
    same_config g (process_one ctx g st r).1 := by
  simp only [process_one]
  split
  · split
    · exact tally_sample_config ..
    · split
      · exact same_config_refl _
      · exact same_config_trans ⟨rfl, rfl, rfl, rfl⟩ (tally_sample_config ..)
  · exact same_config_refl _

lemma process_loop_global_le (ctx : prof_ctx) (recs : List record) :
    ∀ (g : global_state) (st : thread_state),
      g.global_delays ≤ (process_loop ctx g st recs).1.global_delays := by
  induction recs with
  | nil => intro g st; exact le_refl _
  | cons r rs ih =>
    intro g st
    simp only [process_loop]
    split
    · exact le_of_eq (process_one_global_delays ctx g st r).symm
    · exact le_trans (le_of_eq (process_one_global_delays ctx g st r).symm)
        (ih _ _)

lemma process_loop_config (ctx : prof_ctx) (recs : List record) :
    ∀ (g : global_state) (st : thread_state),
      same_config g (process_loop ctx g st recs).1 := by
  induction recs with
  | nil => intro g st; exact same_config_refl _
  | cons r rs ih =>
    intro g st
    simp only [process_loop]
    split
    · exact process_one_config ..
    · exact same_config_trans (process_one_config ..) (ih _ _)

lemma process_samples_global_le (ctx : prof_ctx) (g : global_state)
    (st : thread_state) (recs : List record) :
    g.global_delays ≤ (process_samples ctx g st recs).1.global_delays := by
  simp only [process_samples]
  split
  · exact process_loop_global_le ..
  · exact le_trans (process_loop_global_le ..) (add_delays_global_le ..)

lemma process_samples_config (ctx : prof_ctx) (g : global_state)
    (st : thread_state) (recs : List record) :
    same_config g (process_samples ctx g st recs).1 := by
  simp only [process_samples]
  split
  · exact process_loop_config ..
  · exact same_config_trans (process_loop_config ..) (add_delays_config ..)

lemma end_sampling_global_le (ctx : prof_ctx) (g : global_state)
    (st : thread_state) (recs : List record) :
    g.global_delays ≤ (end_sampling ctx g st recs).1.global_delays := by
  simp only [end_sampling]
  exact le_trans (process_samples_global_le ..) (add_delays_global_le ..)

lemma end_sampling_config (ctx : prof_ctx) (g : global_state)
    (st : thread_state) (recs : List record) :
    same_config g (end_sampling ctx g st recs).1 := by
  simp only [end_sampling]
  exact same_config_trans (process_samples_config ..) (add_delays_config ..)

lemma shutdown_global_le (ctx : prof_ctx) (now : Nat) (g : global_state)
    (st : thread_state) (recs : List record) :
    g.global_delays ≤ (shutdown ctx now g st recs).1.global_delays := by
  simp only [shutdown]
  split
  · exact le_refl _
  · split
    · exact end_sampling_global_le ctx { g with shutdown_run := true } st recs
    · exact end_sampling_global_le ctx { g with shutdown_run := true } st recs

lemma filter_e2e_tally (cfg : Config) (g : global_state) (st : thread_state)
    (l : Option Line) (c : Line) :
    ((tally_sample cfg g st l c).2.2).filter is_e2e = [] := by
  simp only [tally_sample]
  split <;> rfl

lemma filter_e2e_process_one (ctx : prof_ctx) (g : global_state)
    (st : thread_state) (r : record) :
    ((process_one ctx g st r).2.2.1).filter is_e2e = [] := by
  simp only [process_one]
  split
  · split
    · dsimp only
      rw [List.filter_append, filter_e2e_tally]
      cases find_containing_line ctx.find_line r <;> simp [is_e2e]
    · split
      · dsimp only
        cases find_containing_line ctx.find_line r <;> simp [is_e2e]
      · dsimp only
        rw [List.filter_append]
        cases find_containing_line ctx.find_line r <;>
          simp [is_e2e, filter_e2e_tally]
  · rfl

lemma filter_e2e_process_loop (ctx : prof_ctx) (recs : List record) :
    ∀ (g : global_state) (st : thread_state),
      ((process_loop ctx g st recs).2.2.1).filter is_e2e = [] := by
  induction recs with
  | nil => intro g st; rfl
  | cons r rs ih =>
    intro g st
    simp only [process_loop]
    split
    · exact filter_e2e_process_one ..
    · dsimp only
      rw [List.filter_append, filter_e2e_process_one, ih]
      rfl

lemma filter_e2e_process_samples (ctx : prof_ctx) (g : global_state)
    (st : thread_state) (recs : List record) :
    ((process_samples ctx g st recs).2.2).filter is_e2e = [] := by
  simp only [process_samples]
  split
  · exact filter_e2e_process_loop ..
  · exact filter_e2e_process_loop ..

lemma filter_e2e_end_sampling (ctx : prof_ctx) (g : global_state)
    (st : thread_state) (recs : List record) :
    ((end_sampling ctx g st recs).2.2).filter is_e2e = [] := by
  simp only [end_sampling]
  exact filter_e2e_process_samples ..

lemma process_one_out_of_scope (ctx : prof_ctx) (g : global_state)
    (st : thread_state) (r : record)
    (h1 : r.is_sample = true)
    (h2 : find_containing_line ctx.find_line r = none)
    (h3 : g.selected_line = none)
    (h4 : g.fixed_line = none) :
    process_one ctx g st r = (g, st, [], true) := by
  simp [process_one, h1, h2, h3, h4]

lemma process_loop_out_of_scope (ctx : prof_ctx) (g : global_state)
    (st : thread_state) (r : record) (rs : List record)
    (h1 : r.is_sample = true)
    (h2 : find_containing_line ctx.find_line r = none)
    (h3 : g.selected_line = none)
    (h4 : g.fixed_line = none) :
    process_loop ctx g st (r :: rs) = (g, st, [], true) := by
  simp [process_loop, process_one_out_of_scope ctx g st r h1 h2 h3 h4]

lemma process_loop_append (ctx : prof_ctx) (xs : List record) :
    ∀ (g : global_state) (st : thread_state) (ys : List record),
      (process_loop ctx g st xs).2.2.2 = false →
      process_loop ctx g st (xs ++ ys)
        = ((process_loop ctx (process_loop ctx g st xs).1
              (process_loop ctx g st xs).2.1 ys).1,
           (process_loop ctx (process_loop ctx g st xs).1
              (process_loop ctx g st xs).2.1 ys).2.1,
           (process_loop ctx g st xs).2.2.1
             ++ (process_loop ctx (process_loop ctx g st xs).1
                   (process_loop ctx g st xs).2.1 ys).2.2.1,
           (process_loop ctx (process_loop ctx g st xs).1
              (process_loop ctx g st xs).2.1 ys).2.2.2) := by
  induction xs with
  | nil => intro g st ys h; simp [process_loop]
  | cons r rs ih =>
    intro g st ys h
    cases hp : (process_one ctx g st r).2.2.2 with
    | true =>
      exfalso
      simp [process_loop, hp] at h
    | false =>
      simp only [List.cons_append, process_loop, hp] at h ⊢
      simp only [Bool.false_eq_true, if_false] at h ⊢
      simp only [List.append_eq] at h ⊢
      rw [ih _ _ ys h]
      simp [List.append_assoc]

/-- A convenient base global state for concrete evaluations: no selected
line, no fixed line, delay-size sentinel unset, counters zero. -/
def g0 : global_state :=
  { selected_line := none, delay_size := 0, global_delays := 0,
    round_samples := 0, round_start_delays := 0, fixed_line := none,
    fixed_delay_size := -1, start_time := 0, shutdown_run := false,
    rands := [] }

/-- A convenient base thread state for concrete evaluations. -/
def st0 : thread_state :=
  { delay_count := 0, excess_delay := 0, global_delay_snapshot := 0,
    local_delay_snapshot := 0, sampler_running := true, sampler_open := true }

/-- Concrete tunables for witnesses: 1000 ns period, round ends after 2
samples, 20 speedup divisions. -/
def cfg0 : Config :=
  { SamplePeriod := 1000, SampleWakeupCount := 1, MinRoundSamples := 2,
    SpeedupDivisions := 20 }

/-- A concrete address map knowing a single line 7 at address 7. -/
def find1 : Nat → Option Line :=
  fun ip => if ip = 7 then some 7 else none

/-- A concrete context: `cfg0`, the one-line map, and a sleep primitive
that oversleeps by 3 ns. -/
def ctx1 : prof_ctx :=
  { cfg := cfg0, find_line := find1, wait := fun t => t + 3 }

/-- Claim C2: `add_delays` (the DelayEngine) behaves as specified on every
thread state and global state: with `g = global_delays` and
`d = delay_size`, if `delay_count > g` it adds `delay_count − g` to the
global counter; if `delay_count < g` it computes
`w = (g − delay_count) × d` and either consumes `w` from a larger
`excess_delay` and sets `delay_count = g`, or sleeps `w − excess_delay`,
records the oversleep (actually-elapsed minus requested) as the new
`excess_delay`, and sets `delay_count = g`; otherwise it changes nothing. -/
theorem add_delays_delay_engine_cases (wait : Nat → Nat) (g : global_state)
    (st : thread_state) :
    (st.delay_count > g.global_delays →
      add_delays wait g st
        = ({ g with global_delays :=
              g.global_delays + (st.delay_count - g.global_delays) }, st)) ∧
    (st.delay_count < g.global_delays →
      st.excess_delay > (g.global_delays - st.delay_count) * g.delay_size →
      add_delays wait g st
        = (g, { st with
                excess_delay := st.excess_delay
                  - (g.global_delays - st.delay_count) * g.delay_size,
                delay_count := g.global_delays })) ∧
    (st.delay_count < g.global_delays →
      st.excess_delay ≤ (g.global_delays - st.delay_count) * g.delay_size →
      add_delays wait g st
        = (g, { st with
                excess_delay :=
                  wait ((g.global_delays - st.delay_count) * g.delay_size
                          - st.excess_delay)
                    - ((g.global_delays - st.delay_count) * g.delay_size
                          - st.excess_delay),
                delay_count := g.global_delays })) ∧
    (st.delay_count = g.global_delays → add_delays wait g st = (g, st)) := by
  refine ⟨?_, ?_, ?_, ?_⟩
  · intro h
    simp [add_delays, h]
  · intro h1 h2
    have h0 : ¬ st.delay_count > g.global_delays := by omega
    simp [add_delays, h0, h1, h2]
  · intro h1 h2
    have h0 : ¬ st.delay_count > g.global_delays := by omega
    have h3 : ¬ st.excess_delay
        > (g.global_delays - st.delay_count) * g.delay_size := by omega
    simp [add_delays, h0, h1, h3]
  · intro h
    simp [add_delays, h]

/-- Witness for C2, exercising the sleep branch: global count 5, local
count 1, delay size 2, excess credit 4; the required pause is 8, the thread
sleeps 8 − 4 = 4, the primitive oversleeps by 3, and the engine records
excess 3 and catches the thread up to 5. -/
theorem add_delays_delay_engine_cases_witness :
    add_delays (fun t => t + 3) { g0 with global_delays := 5, delay_size := 2 }
        { st0 with delay_count := 1, excess_delay := 4 }
      = ({ g0 with global_delays := 5, delay_size := 2 },
         { st0 with delay_count := 5, excess_delay := 3 }) := by
  have h := (add_delays_delay_engine_cases (fun t => t + 3)
      { g0 with global_delays := 5, delay_size := 2 }
      { st0 with delay_count := 1, excess_delay := 4 }).2.2.1
      (by decide) (by decide)
  rw [h]
  decide

/-- Claim C4: `global_delays` is monotonically non-decreasing: every modelled
operation of the profiler that returns a global state leaves the counter
unchanged or increases it. The remaining operations (`snapshot_delays`,
`skip_delays`, `begin_sampling`, `handle_pthread_create`,
`start_thread_setup`) return only thread-local data and cannot write the
global counter at all. -/
theorem global_delays_monotone (ctx : prof_ctx) (wait : Nat → Nat) (now : Nat)
    (g : global_state) (st : thread_state) (r : record) (recs : List record)
    (state : Option thread_state) :
    g.global_delays ≤ (add_delays wait g st).1.global_delays ∧
    g.global_delays ≤ (catch_up wait g st).1.global_delays ∧
    g.global_delays ≤ (process_one ctx g st r).1.global_delays ∧
    g.global_delays ≤ (process_loop ctx g st recs).1.global_delays ∧
    g.global_delays ≤ (process_samples ctx g st recs).1.global_delays ∧
    g.global_delays ≤ (end_sampling ctx g st recs).1.global_delays ∧
    g.global_delays ≤ (shutdown ctx now g st recs).1.global_delays ∧
    g.global_delays ≤ (samples_ready ctx state g recs).1.global_delays := by
  refine ⟨add_delays_global_le .., add_delays_global_le ..,
    le_of_eq (process_one_global_delays ctx g st r).symm,
    process_loop_global_le .., process_samples_global_le ..,
    end_sampling_global_le .., shutdown_global_le .., ?_⟩
  cases state with
  | none => exact le_refl _
  | some st' => exact process_samples_global_le ..

/-- Claim C5: `snapshot_delays()` followed by `skip_delays()` with no
intervening modification of the thread's `delay_count` establishes
`delay_count = local_delay_snapshot + (global_delays_now −
global_delay_snapshot)`; since the snapshot stores the thread's
`delay_count` and the current global counter, this equals the old
`delay_count` plus the delays issued in between (`g1` is the global state
read by `snapshot_delays`, `g2` the one read by `skip_delays`). -/
theorem snapshot_then_skip_delays (g1 g2 : global_state) (st : thread_state) :
    (skip_delays g2 (snapshot_delays g1 st)).delay_count
      = (snapshot_delays g1 st).local_delay_snapshot
          + (g2.global_delays - (snapshot_delays g1 st).global_delay_snapshot) ∧
    (skip_delays g2 (snapshot_delays g1 st)).delay_count
      = st.delay_count + (g2.global_delays - g1.global_delays) :=
  ⟨rfl, rfl⟩

/-- Claim C8: a thread created through the interposed path gets a thread
state whose `delay_count` and `excess_delay` equal the parent's values
captured at spawn time by `handle_pthread_create`, established by
`start_thread` before the user function runs. -/
theorem child_thread_inherits_parent_delays (fn a : Nat)
    (parent child : thread_state) :
    (start_thread_setup (handle_pthread_create fn a parent) child).delay_count
        = parent.delay_count ∧
    (start_thread_setup (handle_pthread_create fn a parent) child).excess_delay
        = parent.excess_delay :=
  ⟨rfl, rfl⟩

/-- Claim C9: when the signal handler `samples_ready` fails to acquire the
thread state in signal-context mode (the latch probe returns nothing), it
performs no work at all: the global state is untouched, no thread state is
produced, and no event is emitted. -/
theorem samples_ready_latch_contention_no_work (ctx : prof_ctx)
    (g : global_state) (recs : List record) :
    samples_ready ctx none g recs = (g, none, []) :=
  rfl

/-- Claim C10: when `process_samples` encounters a buffered sample that
resolves to no known line while `selected_line` is nil and no fixed line is
configured, the function returns immediately: the result is exactly the
state after `sampler.stop()`, independent of the remaining buffered samples
`rs` (they are not processed), with no events, no DelayEngine call, and the
sampler left stopped. -/
theorem process_samples_out_of_scope_early_return (ctx : prof_ctx)
    (g : global_state) (st : thread_state) (r : record) (rs : List record)
    (h1 : r.is_sample = true)
    (h2 : find_containing_line ctx.find_line r = none)
    (h3 : g.selected_line = none)
    (h4 : g.fixed_line = none) :
    process_samples ctx g st (r :: rs)
      = (g, { st with sampler_running := false }, []) := by
  have hl := process_loop_out_of_scope ctx g
      { st with sampler_running := false } r rs h1 h2 h3 h4
  simp [process_samples, hl]

/-- Witness for C10: a buffer holding an out-of-scope sample followed by a
sample in the known line 7; processing returns immediately after the first
sample with no events and the sampler stopped. -/
theorem process_samples_out_of_scope_early_return_witness :
    process_samples ctx1 { g0 with rands := [10] } st0
        [⟨true, 3, []⟩, ⟨true, 7, []⟩]
      = ({ g0 with rands := [10] }, { st0 with sampler_running := false }, []) :=
  process_samples_out_of_scope_early_return ctx1 { g0 with rands := [10] }
    st0 ⟨true, 3, []⟩ [⟨true, 7, []⟩] (by decide) (by decide) (by decide)
    (by decide)

/-- Claim C3: the end-round transition. In the per-sample step with a round
in progress, the thread whose increment makes `round_samples` equal
`MinRoundSamples` emits `end_round(global_delays − round_start_delays,
delay_size)` and stores `selected_line = nil`; a thread whose increment
yields any other value emits no `end_round` and leaves the selected line in
place. Across the whole round — modelled by `fetch_add_returns n`, the
values returned by the `n` serialized atomic increments of a counter
starting at `0` — exactly one increment returns the sentinel
`MinRoundSamples = M` (whenever `1 ≤ M ≤ n`), so exactly one thread
performs the transition. -/
theorem end_round_transition_unique (ctx : prof_ctx) (g : global_state)
    (st : thread_state) (r : record) (c : Line) (n M : Nat) :
    (r.is_sample = true → g.selected_line = some c →
      g.round_samples + 1 = ctx.cfg.MinRoundSamples →
      (process_one ctx g st r).1.selected_line = none ∧
      event.end_round (g.global_delays - g.round_start_delays) g.delay_size
        ∈ (process_one ctx g st r).2.2.1) ∧
    (r.is_sample = true → g.selected_line = some c →
      g.round_samples + 1 ≠ ctx.cfg.MinRoundSamples →
      (process_one ctx g st r).1.selected_line = some c ∧
      ∀ d s, event.end_round d s ∉ (process_one ctx g st r).2.2.1) ∧
    (1 ≤ M → M ≤ n → (fetch_add_returns n).count M = 1) := by
  refine ⟨?_, ?_, ?_⟩
  · intro hs hsel hM
    cases hfind : find_containing_line ctx.find_line r <;>
      simp [process_one, hs, hsel, hfind, tally_sample, hM]
  · intro hs hsel hM
    cases hfind : find_containing_line ctx.find_line r <;>
      simp [process_one, hs, hsel, hfind, tally_sample, hM]
  · intro h1 h2
    have hinj : Function.Injective (fun x : Nat => x + 1) := by
      intro a b hab
      simpa using hab
    have hnd : (fetch_add_returns n).Nodup :=
      List.Nodup.map hinj (List.nodup_range n)
    have hmem : M ∈ fetch_add_returns n := by
      have hM1 : (M - 1) + 1 = M := by omega
      simp only [fetch_add_returns, List.mem_map, List.mem_range]
      exact ⟨M - 1, by omega, hM1⟩
    exact List.count_eq_one_of_mem hnd hmem

/-- Witness for C3: with `MinRoundSamples = 2`, a state one sample short of
the round end, and global delays 4 against a round start of 1, processing
one more sample clears the selected line and emits `end_round 3 500`; and
among 5 serialized increments exactly one returns the sentinel 2. -/
theorem end_round_transition_unique_witness :
    ((process_one ctx1
        { g0 with selected_line := some 7, round_samples := 1,
                  global_delays := 4, round_start_delays := 1,
                  delay_size := 500 } st0 ⟨true, 3, []⟩).1.selected_line = none ∧
     event.end_round 3 500
       ∈ (process_one ctx1
            { g0 with selected_line := some 7, round_samples := 1,
                      global_delays := 4, round_start_delays := 1,
                      delay_size := 500 } st0 ⟨true, 3, []⟩).2.2.1) ∧
    (fetch_add_returns 5).count 2 = 1 := by
  have h := end_round_transition_unique ctx1
      { g0 with selected_line := some 7, round_samples := 1,
                global_delays := 4, round_start_delays := 1,
                delay_size := 500 } st0 ⟨true, 3, []⟩ 7 5 2
  refine ⟨?_, h.2.2 (by decide) (by decide)⟩
  have h1 := h.1 (by decide) (by decide) (by decide)
  exact ⟨h1.1, by simpa using h1.2⟩

/-- Claim C1 counterexample: the claim says an out-of-scope sample (no
known line, no round in progress, no fixed line) is skipped and the
subsequent samples in the same buffer are still processed. On the code, a
buffer whose first sample is out of scope and whose second sample lies in
the known line 7 produces no events at all — while the second sample alone
would be processed (its line counter bumped and a round started). -/
theorem process_samples_skip_and_continue_cex :
    ((process_samples ctx1 { g0 with rands := [10] } st0
        [⟨true, 3, []⟩, ⟨true, 7, []⟩]).2.2 = ([] : List event)) ∧
    (process_samples ctx1 { g0 with rands := [10] } st0
        [⟨true, 7, []⟩]).2.2
      = [event.line_sample 7, event.start_round 7] := by
  constructor <;> rfl

/-- Claim C1 (amended): a buffered sample that resolves to no known line
while no round is in progress and no fixed line is configured is itself
skipped (it contributes no event), but processing does NOT proceed to the
next buffered sample: the record loop returns immediately with whatever the
preceding records produced, and the remaining buffered samples are not
processed in this invocation (the result does not depend on them). -/
theorem process_loop_out_of_scope_stops (ctx : prof_ctx) (g : global_state)
    (st : thread_state) (pre : List record) (r : record)
    (rs rs' : List record)
    (hpre : (process_loop ctx g st pre).2.2.2 = false)
    (h1 : r.is_sample = true)
    (h2 : find_containing_line ctx.find_line r = none)
    (h3 : (process_loop ctx g st pre).1.selected_line = none)
    (h4 : (process_loop ctx g st pre).1.fixed_line = none) :
    process_loop ctx g st (pre ++ r :: rs)
      = ((process_loop ctx g st pre).1, (process_loop ctx g st pre).2.1,
         (process_loop ctx g st pre).2.2.1, true) ∧
    process_loop ctx g st (pre ++ r :: rs)
      = process_loop ctx g st (pre ++ r :: rs') := by
  have hmid := process_loop_out_of_scope ctx (process_loop ctx g st pre).1
      (process_loop ctx g st pre).2.1 r rs h1 h2 h3 h4
  have hmid' := process_loop_out_of_scope ctx (process_loop ctx g st pre).1
      (process_loop ctx g st pre).2.1 r rs' h1 h2 h3 h4
  have happ := process_loop_append ctx pre g st (r :: rs) hpre
  have happ' := process_loop_append ctx pre g st (r :: rs') hpre
  constructor
  · rw [happ, hmid]
    simp
  · rw [happ, happ', hmid, hmid']

/-- Witness for the amended C1: a metadata record, then an out-of-scope
sample, then a sample in the known line 7; the loop stops at the
out-of-scope sample and the trailing sample is not processed. -/
theorem process_loop_out_of_scope_stops_witness :
    process_loop ctx1 { g0 with rands := [10] } st0
        ([⟨false, 0, []⟩] ++ ⟨true, 3, []⟩ :: [⟨true, 7, []⟩])
      = ({ g0 with rands := [10] }, st0, [], true) := by
  have h := process_loop_out_of_scope_stops ctx1 { g0 with rands := [10] }
      st0 [⟨false, 0, []⟩] ⟨true, 3, []⟩ [⟨true, 7, []⟩] []
      (by decide) (by decide) (by decide) (by decide) (by decide)
  rw [h.1]
  decide

/-- Claim C6: the end-to-end report. On the teardown call of `shutdown`
(`_shutdown_run` not yet set), exactly one end-to-end line is printed to
stderr when and only when both a fixed line is set and `fixed_delay_size`
is not the unset sentinel `-1`; its content is the fraction
`fixed_delay_size / SamplePeriod` (printed as a float) and
`effective_time = (now − start_time) − global_delays × fixed_delay_size`,
where `global_delays` is the value of the counter after the teardown's
`end_sampling`. -/
theorem shutdown_end_to_end_report (ctx : prof_ctx) (now : Nat)
    (g : global_state) (st : thread_state) (recs : List record)
    (h : g.shutdown_run = false) :
    (shutdown ctx now g st recs).2.2.filter is_e2e
      = if g.fixed_line.isSome ∧ g.fixed_delay_size ≠ -1 then
          [event.e2e_report g.fixed_delay_size ctx.cfg.SamplePeriod
            ((now - g.start_time)
              - (end_sampling ctx { g with shutdown_run := true } st recs).1.global_delays
                  * g.fixed_delay_size.toNat)]
        else [] := by
  have hc := end_sampling_config ctx { g with shutdown_run := true } st recs
  have hline : (end_sampling ctx { g with shutdown_run := true } st recs).1.fixed_line
      = g.fixed_line := hc.1
  have hfds : (end_sampling ctx { g with shutdown_run := true } st recs).1.fixed_delay_size
      = g.fixed_delay_size := hc.2.1
  have htime : (end_sampling ctx { g with shutdown_run := true } st recs).1.start_time
      = g.start_time := hc.2.2.1
  simp only [shutdown, h, Bool.false_eq_true, if_false]
  split
  · rename_i hcond
    rw [hline, hfds] at hcond
    dsimp only
    rw [List.filter_append, List.filter_append, filter_e2e_end_sampling,
        hfds, htime]
    simp [is_e2e, hcond]
  · rename_i hcond
    rw [hline, hfds] at hcond
    dsimp only
    rw [List.filter_append, filter_e2e_end_sampling]
    simp [is_e2e, hcond]

/-- Witness for C6: fixed line 7, fixed delay size 500, sample period 1000,
shutdown at time 5 with an empty buffer and no delays issued: the single
stderr line carries the fraction 500/1000 and effective time 5. -/
theorem shutdown_end_to_end_report_witness :
    (shutdown ctx1 5
        { g0 with fixed_line := some 7, fixed_delay_size := 500 }
        st0 []).2.2.filter is_e2e
      = [event.e2e_report 500 1000 5] := by
  have h := shutdown_end_to_end_report ctx1 5
      { g0 with fixed_line := some 7, fixed_delay_size := 500 } st0 []
      (by decide)
  rw [h]
  decide

/-- Claim C7: `shutdown` is idempotent under the `_shutdown_run`
test-and-set. After any call the flag is set; a call that finds the flag
already set returns with no state change and no effect; a teardown call
(flag clear) closes the sampler (`end_sampling`) and emits the shutdown and
output-destruction effects; and a second call performed after any first
call — from any thread state, with any buffer — is a no-op. -/
theorem shutdown_idempotent (ctx ctx2 : prof_ctx) (now now2 : Nat)
    (g : global_state) (st st2 : thread_state) (recs recs2 : List record) :
    (shutdown ctx now g st recs).1.shutdown_run = true ∧
    (g.shutdown_run = true → shutdown ctx now g st recs = (g, st, [])) ∧
    (g.shutdown_run = false →
      (shutdown ctx now g st recs).2.1.sampler_open = false ∧
      event.shutdown_ev ∈ (shutdown ctx now g st recs).2.2 ∧
      event.output_destroyed ∈ (shutdown ctx now g st recs).2.2) ∧
    shutdown ctx2 now2 (shutdown ctx now g st recs).1 st2 recs2
      = ((shutdown ctx now g st recs).1, st2, []) := by
  have hflag : (shutdown ctx now g st recs).1.shutdown_run = true := by
    cases hrun : g.shutdown_run with
    | true => simp [shutdown, hrun]
    | false =>
      have hc := end_sampling_config ctx { g with shutdown_run := true } st recs
      simp only [shutdown, hrun, Bool.false_eq_true, if_false]
      split
      · exact hc.2.2.2
      · exact hc.2.2.2
  have hsecond : ∀ (G : global_state), G.shutdown_run = true →
      shutdown ctx2 now2 G st2 recs2 = (G, st2, []) := by
    intro G hG
    simp [shutdown, hG]
  refine ⟨hflag, ?_, ?_, hsecond _ hflag⟩
  · intro hrun
    simp [shutdown, hrun]
  · intro hrun
    simp only [shutdown, hrun, Bool.false_eq_true, if_false]
    split
    · dsimp only
      refine ⟨?_, ?_, ?_⟩
      · simp [end_sampling]
      · simp
      · simp
    · dsimp only
      refine ⟨?_, ?_, ?_⟩
      · simp [end_sampling]
      · simp
      · simp

/-- Witness for C7: the first shutdown at time 5 sets the flag and emits
the shutdown event; a second shutdown at time 7 with a fresh thread state
is a no-op. -/
theorem shutdown_idempotent_witness :
    (shutdown ctx1 5 g0 st0 []).1.shutdown_run = true ∧
    shutdown ctx1 7 (shutdown ctx1 5 g0 st0 []).1 st0 []
      = ((shutdown ctx1 5 g0 st0 []).1, st0, []) ∧
    event.shutdown_ev ∈ (shutdown ctx1 5 g0 st0 []).2.2 := by
  have h := shutdown_idempotent ctx1 ctx1 5 7 g0 st0 st0 [] []
  exact ⟨h.1, h.2.2.2, (h.2.2.1 (by decide)).2.1⟩

end coz
